import Mathlib

/-!
Shallow embedding of `fastaTogenbank.py`, a FASTA → GenBank conversion
utility.  Files are modelled as lists of lines (strings without newline
characters); the file system as an association list from paths to file
contents; Python exceptions as an explicit error type threaded through
`Except`.  The third-party sequence-format library (Biopython's
`SeqIO.parse` / `SeqIO.write`) is an external collaborator; its
externally observable contract (standard FASTA record splitting on input,
one `LOCUS` block per record with the record identifier on output) is
modelled from the spec where noted.
-/

namespace FastaToGenbank

/-- Python exception classes relevant to the program: `IOError` (OSError),
the generic `Exception` re-raised by `write_genbank`, the
`statistics.StatisticsError` raised by `statistics.mean` on empty data,
and a hypothetical `InvalidInputError` the spec recommends (it does not
occur anywhere in the code). -/
inductive PyError
  | ioError
  | unexpectedError
  | statisticsError
  | invalidInputError
deriving DecidableEq

/-- Embedding of a Biopython `SeqRecord`: identifier, sequence characters,
and the annotations dictionary (modelled as an association list). -/
structure SeqRecord where
  id : String
  seq : String
  annotations : List (String × String)
deriving DecidableEq

/-- Python dict assignment `m[k] = v`: replace the value when the key is
present, otherwise append the new binding. -/
def annotSet (m : List (String × String)) (k v : String) : List (String × String) :=
  if m.any (fun p => p.1 == k) then
    m.map (fun p => if p.1 == k then (k, v) else p)
  else
    m ++ [(k, v)]

/-- Python dict lookup `m.get(k)`. -/
def annotGet (m : List (String × String)) (k : String) : Option String :=
  (m.find? (fun p => p.1 == k)).map (fun p => p.2)

/-- A file system for reading: paths mapped to file contents (lists of
lines). -/
def Fs := List (String × List String)

/-- Look a path up in the file system. -/
def lookupFile (fs : Fs) (path : String) : Option (List String) :=
  (fs.find? (fun p => p.1 == path)).map (fun p => p.2)

/-- Embedding of `re.match(r'^>', line)` turned into a boolean: the line's
first character is `>`. -/
def reMatchGt (line : String) : Bool :=
  match line.data with
  | [] => false
  | c :: _ => c == '>'

/-- Embedding of `has_valid_header` (src/fastaTogenbank.py:71-89): open the
file (an `IOError` when it does not exist), read the first line (the empty
string for an empty file) and test it against `^>`. -/
def has_valid_header (fs : Fs) (filename : String) : Except PyError Bool :=
  match lookupFile fs filename with
  | none => .error .ioError
  | some lines => .ok (reMatchGt (lines.headD ""))

/-- Embedding of `is_fasta` (src/fastaTogenbank.py:55-68): the filename ends
with `.fasta` or `.fa`. -/
def is_fasta (filename : String) : Bool :=
  ".fasta".data.isSuffixOf filename.data || ".fa".data.isSuffixOf filename.data

/-- Modelled from the spec: the identifier Biopython's FASTA parser takes
from a header line — the first whitespace-delimited word after the `>`
(`title.split(None, 1)[0]`). -/
def headerId (line : String) : String :=
  String.mk ((line.data.drop 1).takeWhile (fun c => !(c == ' ') && !(c == '\t')))

/-- Modelled from the spec: Biopython's FASTA record accumulation.  Having
seen a header giving identifier `i` and accumulated sequence `acc`, the
remaining lines either extend the current record's sequence or start a new
record at the next `>` header. -/
def buildRecords (i acc : String) : List String → List SeqRecord
  | [] => [⟨i, acc, []⟩]
  | l :: ls =>
    if reMatchGt l then ⟨i, acc, []⟩ :: buildRecords (headerId l) "" ls
    else buildRecords i (acc ++ l) ls

/-- Modelled from the spec: `list(SeqIO.parse(file, "fasta"))` — skip any
lines before the first `>` header, then split the file into records at
header lines, in file order. -/
def fastaParse : List String → List SeqRecord
  | [] => []
  | l :: ls =>
    if reMatchGt l then buildRecords (headerId l) "" ls
    else fastaParse ls

/-- Embedding of `parse_file` (src/fastaTogenbank.py:93-113): parse the
FASTA file and set every record's `molecule_type` annotation to `"DNA"`. -/
def parse_file (lines : List String) : List SeqRecord :=
  (fastaParse lines).map
    (fun r => { r with annotations := annotSet r.annotations "molecule_type" "DNA" })

/-- Embedding of Python `statistics.mean` over the (nonempty) size list,
exact over the rationals. -/
def pymean (l : List Nat) : ℚ :=
  (l.map (fun n : ℕ => (n : ℚ))).sum / l.length

/-- Embedding of Python `statistics.median`: sort, take the middle element
for odd length, the average of the two middle elements for even length. -/
def pymedian (l : List Nat) : ℚ :=
  let s := l.mergeSort (fun a b => a ≤ b)
  let n := l.length
  if n % 2 = 1 then (s.getD (n / 2) 0 : ℕ)
  else ((s.getD (n / 2 - 1) 0 : ℚ) + (s.getD (n / 2) 0 : ℚ)) / 2

/-- Embedding of Python `max` over a nonempty list (the `[]` branch is never
reached by the program: `statistics.mean` fails first on empty data). -/
def pymax : List Nat → Nat
  | [] => 0
  | x :: xs => xs.foldl max x

/-- Embedding of Python `min` over a nonempty list (the `[]` branch is never
reached by the program). -/
def pymin : List Nat → Nat
  | [] => 0
  | x :: xs => xs.foldl min x

/-- Result dictionary returned by `print_fasta_statistics`. -/
structure StatsDict where
  total_reads : Nat
  mean_read_length : ℚ
  median_read_length : ℚ
  max_read_length : Nat
  min_read_length : Nat
deriving DecidableEq

/-- Embedding of `print_fasta_statistics` (src/fastaTogenbank.py:21-50):
re-parse the file, print `Total reads`, then compute and print mean,
median, max, min of the sequence lengths and return them as a dictionary.
The printed trace is modelled as labelled values; on empty data
`statistics.mean` raises `StatisticsError` after `Total reads: 0` was
already printed. -/
def print_fasta_statistics (lines : List String) :
    List (String × ℚ) × Except PyError StatsDict :=
  let records := fastaParse lines
  let total_reads := records.length
  let sizes := records.map (fun r => r.seq.length)
  match sizes with
  | [] => ([("Total reads", (total_reads : ℚ))], .error .statisticsError)
  | _ :: _ =>
    ([("Total reads", (total_reads : ℚ)),
      ("Mean read length", pymean sizes),
      ("Median read length", pymedian sizes),
      ("Max read length", (pymax sizes : ℚ)),
      ("Min read length", (pymin sizes : ℚ))],
     .ok ⟨total_reads, pymean sizes, pymedian sizes, pymax sizes, pymin sizes⟩)

/-- Destination argument of `write_genbank` as a Python value: either a
path string or Python's `None` (the value `argparse` gives `args.output`
when `-o` is omitted). -/
inductive PyDest
  | str (s : String)
  | pynone
deriving DecidableEq

/-- An element of the list handed to `SeqIO.write`: either a proper
`SeqRecord` or arbitrary junk (as in the test that passes a string). -/
inductive WriterItem
  | record (r : SeqRecord)
  | junk (s : String)
deriving DecidableEq

/-- Modelled from the spec: the GenBank writer requires each record to
carry the `molecule_type` annotation; a junk element is never a valid
record. -/
def itemValid : WriterItem → Bool
  | .record r => (annotGet r.annotations "molecule_type").isSome
  | .junk _ => false

/-- Modelled from the spec: the GenBank block the external writer emits
for one record — a `LOCUS` header line carrying the record identifier,
then the origin section with the sequence and the `//` terminator.  Lines
are lists of characters so that identifier extraction is structural. -/
def genbankRecordLines (r : SeqRecord) : List (List Char) :=
  [ "LOCUS       ".data ++ (r.id.data ++ (' ' :: ((toString r.seq.length).data
      ++ (" bp ".data ++ ((annotGet r.annotations "molecule_type").getD "").data)))),
    "ORIGIN".data,
    "        1 ".data ++ r.seq.data,
    "//".data ]

/-- Lines the writer emits for one input element (junk elements make the
write fail before anything matters, so they render to nothing). -/
def itemLines : WriterItem → List (List Char)
  | .record r => genbankRecordLines r
  | .junk _ => []

/-- Directory portion of a path: everything before the last `/`, or the
current directory (modelled as `""`, which always exists) when the path
has no `/`. -/
def parentOf (path : String) : String :=
  if path.data.contains '/' then
    String.mk ((((path.data.reverse).dropWhile (fun c => !(c == '/'))).drop 1).reverse)
  else ""

/-- Whether `open(path, "w")` can succeed: the parent directory exists. -/
def dirOk (dirs : List String) (path : String) : Bool :=
  parentOf path == "" || dirs.contains (parentOf path)

/-- Embedding of `write_genbank` (src/fastaTogenbank.py:115-141) around the
external `SeqIO.write(parsed_list, genbank_file, "genbank")`: a missing
parent directory raises `IOError` when the output file is opened; a `None`
destination or an input that is not a sequence of valid annotated records
raises a non-IO exception; both are caught, printed and re-raised (the
`return error` lines after each `raise` are dead code, so the function
never returns normally on failure).  On success it prints the completion
message and returns the count written together with the emitted file
content. -/
def write_genbank (dirs : List String) (parsed_list : List WriterItem)
    (genbank_file : PyDest) : List String × Except PyError (Nat × List (List Char)) :=
  match genbank_file with
  | .pynone => (["An unexpected error occurred: "], .error .unexpectedError)
  | .str path =>
    if dirOk dirs path then
      if parsed_list.all itemValid then
        (["Conversion process completed Successfully."],
         .ok (parsed_list.length, parsed_list.flatMap itemLines))
      else
        (["An unexpected error occurred: "], .error .unexpectedError)
    else
      (["An I/O error occurred: "], .error .ioError)

/-- Embedding of the call `write_genbank(parsed_list)` with the destination
argument omitted, so that the Python default parameter
`genbank_file="genbankOutput"` (src/fastaTogenbank.py:115) applies. -/
def write_genbank_nodest (dirs : List String) (parsed_list : List WriterItem) :
    List String × Except PyError (Nat × List (List Char)) :=
  write_genbank dirs parsed_list (.str "genbankOutput")

/-- Command-line arguments after `argparse`: `-i` is required; an omitted
`-o` yields `output = None`; `-p` is a boolean flag. -/
structure Args where
  input : String
  output : PyDest
  print_stats : Bool

/-- Embedding of `main` (src/fastaTogenbank.py:144-165): validate the input
(`is_fasta` short-circuits, so a missing file only raises once
`has_valid_header` opens it), optionally compute the statistics
(propagating their error), then call `write_genbank` with the records of
`parse_file` and — crucially — with `args.output` as the destination.
The result carries whether the file was accepted, the statistics
dictionary when printed, and the write outcome. -/
def main (fs : Fs) (dirs : List String) (args : Args) :
    Except PyError (Bool × Option StatsDict × Option (Nat × List (List Char))) :=
  if is_fasta args.input then
    match lookupFile fs args.input with
    | none => .error .ioError
    | some lines =>
      if reMatchGt (lines.headD "") then
        match (if args.print_stats then
                ((print_fasta_statistics lines).2).map some
               else .ok none) with
        | .error e => .error e
        | .ok stats =>
          match (write_genbank dirs ((parse_file lines).map WriterItem.record) args.output).2 with
          | .error e => .error e
          | .ok out => .ok (true, stats, some out)
      else .ok (false, none, none)
  else .ok (false, none, none)

/-- Identifiers appearing in an emitted GenBank file: for every line
starting with the `LOCUS` keyword, the word following the fixed-width
`LOCUS` field. -/
def genbankIds (content : List (List Char)) : List (List Char) :=
  content.filterMap (fun l =>
    if "LOCUS".data.isPrefixOf l then
      some ((l.drop 12).takeWhile (fun c => !(c == ' ')))
    else none)

/-- Statistics Calculator as the spec words it (§4.2): given the in-memory
ordered sequence of parsed records, compute total count and mean, median,
max, min over the sequence lengths, printing them in the fixed order.
Used to compare against `print_fasta_statistics`, which re-parses the file
from its path instead of receiving the records. -/
def statsFromRecords (records : List SeqRecord) :
    List (String × ℚ) × Except PyError StatsDict :=
  let total_reads := records.length
  let sizes := records.map (fun r => r.seq.length)
  match sizes with
  | [] => ([("Total reads", (total_reads : ℚ))], .error .statisticsError)
  | _ :: _ =>
    ([("Total reads", (total_reads : ℚ)),
      ("Mean read length", pymean sizes),
      ("Median read length", pymedian sizes),
      ("Max read length", (pymax sizes : ℚ)),
      ("Min read length", (pymin sizes : ℚ))],
     .ok ⟨total_reads, pymean sizes, pymedian sizes, pymax sizes, pymin sizes⟩)

/-- The three-record FASTA input of the spec's statistics example, with
sequence lengths 3, 12 and 21. -/
def statsExampleLines : List String :=
  [">seq1", "ATG", ">seq2", "ATCGATCGATCG", ">seq3", "ATCGATCGATCGATCGATCGT"]

/-- A small two-record FASTA input used to instantiate the round-trip
property. -/
def roundtripExampleLines : List String :=
  [">seq1", "ATGC", ">seq2", "GG"]

/-- The `sizes` list of `print_fasta_statistics`: the sequence lengths of
the parsed records of a file, in file order. -/
def sizesOf (lines : List String) : List ℕ :=
  (fastaParse lines).map (fun r => r.seq.length)

/-! ### Parser lemmas -/

theorem data_headerId (line : String) :
    (headerId line).data
      = (line.data.drop 1).takeWhile (fun c => !(c == ' ') && !(c == '\t')) := rfl

theorem headerId_spaceFree (line : String) :
    ∀ c ∈ (headerId line).data, c ≠ ' ' := by
  intro c hc
  rw [data_headerId] at hc
  have hp := List.mem_takeWhile_imp hc
  simp only [Bool.and_eq_true, Bool.not_eq_true'] at hp
  intro h
  rw [h] at hp
  simp at hp

theorem buildRecords_mem : ∀ (ls : List String) (i acc : String) (r : SeqRecord),
    r ∈ buildRecords i acc ls →
    r.annotations = [] ∧ (r.id = i ∨ ∃ l, r.id = headerId l) := by
  intro ls
  induction ls with
  | nil =>
    intro i acc r hr
    simp only [buildRecords, List.mem_singleton] at hr
    subst hr
    exact ⟨rfl, Or.inl rfl⟩
  | cons l ls ih =>
    intro i acc r hr
    simp only [buildRecords] at hr
    by_cases h : reMatchGt l
    · rw [if_pos h] at hr
      rcases List.mem_cons.mp hr with h1 | h2
      · subst h1
        exact ⟨rfl, Or.inl rfl⟩
      · rcases ih (headerId l) "" r h2 with ⟨ha, hid⟩
        refine ⟨ha, Or.inr ?_⟩
        rcases hid with h3 | h3
        · exact ⟨l, h3⟩
        · exact h3
    · rw [if_neg h] at hr
      exact ih i (acc ++ l) r hr

theorem fastaParse_mem : ∀ (lines : List String) (r : SeqRecord),
    r ∈ fastaParse lines → r.annotations = [] ∧ ∃ l, r.id = headerId l := by
  intro lines
  induction lines with
  | nil => intro r hr; simp [fastaParse] at hr
  | cons l ls ih =>
    intro r hr
    simp only [fastaParse] at hr
    by_cases h : reMatchGt l
    · rw [if_pos h] at hr
      rcases buildRecords_mem ls (headerId l) "" r hr with ⟨ha, hid⟩
      refine ⟨ha, ?_⟩
      rcases hid with h1 | h1
      · exact ⟨l, h1⟩
      · exact h1
    · rw [if_neg h] at hr
      exact ih r hr

theorem fastaParse_id_spaceFree (lines : List String) (r : SeqRecord)
    (hr : r ∈ fastaParse lines) : ∀ c ∈ r.id.data, c ≠ ' ' := by
  rcases (fastaParse_mem lines r hr).2 with ⟨l, hl⟩
  rw [hl]
  exact headerId_spaceFree l

theorem parse_file_molecule (lines : List String) (r : SeqRecord)
    (hr : r ∈ parse_file lines) :
    annotGet r.annotations "molecule_type" = some "DNA" := by
  simp only [parse_file, List.mem_map] at hr
  rcases hr with ⟨r₀, hr₀, rfl⟩
  have h := (fastaParse_mem lines r₀ hr₀).1
  show annotGet (annotSet r₀.annotations "molecule_type" "DNA") "molecule_type"
      = some "DNA"
  rw [h]
  rfl

/-! ### Claim theorems (first group) -/

/-- C2: parsing the two-record FASTA file of the spec yields exactly the
sequences "ATGCTAGCTAGCTACGATCG" and "ATCGATCGATCGATCGATCG" in file order,
and every record `parse_file` returns — for any input whatsoever — carries
the `molecule_type` annotation set to the literal `"DNA"`. -/
theorem parse_file_sequences_and_molecule_type :
    (parse_file [">seq1", "ATGCTAGCTAGCTACGATCG", ">seq2", "ATCGATCGATCGATCGATCG"]).map
        (fun r => r.seq) = ["ATGCTAGCTAGCTACGATCG", "ATCGATCGATCGATCGATCG"]
    ∧ ∀ (lines : List String) (r : SeqRecord), r ∈ parse_file lines →
        annotGet r.annotations "molecule_type" = some "DNA" :=
  ⟨by decide, fun lines r hr => parse_file_molecule lines r hr⟩

/-- Witness for C2: the membership hypothesis discharged on the concrete
one-record input. -/
theorem parse_file_molecule_type_witness :
    annotGet (SeqRecord.mk "seq1" "ATGC" [("molecule_type", "DNA")]).annotations
      "molecule_type" = some "DNA" :=
  parse_file_sequences_and_molecule_type.2 [">seq1", "ATGC"]
    ⟨"seq1", "ATGC", [("molecule_type", "DNA")]⟩ (by decide)

/-- Helper: `reMatchGt` tests exactly that the first character is `>`. -/
theorem reMatchGt_eq_head (l : String) :
    reMatchGt l = decide (l.data.head? = some '>') := by
  rcases hd : l.data with _ | ⟨c, cs⟩
  · simp [reMatchGt, hd]
  · simp only [reMatchGt, hd, List.head?_cons]
    rcases h : (c == '>') with _ | _
    · simp only [beq_eq_false_iff_ne] at h
      simp [h]
    · simp only [beq_iff_eq] at h
      simp [h]

/-- C5: for an openable file, `has_valid_header` returns the boolean "the
first character of the file's first line is `>`" (an empty file reads an
empty first line, so `false`); for a path that cannot be opened it
propagates an `IOError` instead of returning a boolean. -/
theorem has_valid_header_spec (fs : Fs) (path : String) :
    (∀ lines, lookupFile fs path = some lines →
        has_valid_header fs path
          = .ok (decide ((lines.headD "").data.head? = some '>')))
    ∧ (lookupFile fs path = none → has_valid_header fs path = .error .ioError) := by
  constructor
  · intro lines hl
    simp [has_valid_header, hl, reMatchGt_eq_head]
  · intro h
    simp [has_valid_header, h]

/-- Witness for C5: a header file giving `true`, an empty file and a
plain-text file giving `false`, and a missing path raising `IOError`. -/
theorem has_valid_header_spec_witness :
    has_valid_header [("a.fasta", [">x", "ATG"]), ("empty.fasta", []),
        ("plain.fasta", ["seq1", "ATG"])] "a.fasta" = .ok true
    ∧ has_valid_header [("a.fasta", [">x", "ATG"]), ("empty.fasta", []),
        ("plain.fasta", ["seq1", "ATG"])] "empty.fasta" = .ok false
    ∧ has_valid_header [("a.fasta", [">x", "ATG"]), ("empty.fasta", []),
        ("plain.fasta", ["seq1", "ATG"])] "plain.fasta" = .ok false
    ∧ has_valid_header [("a.fasta", [">x", "ATG"]), ("empty.fasta", []),
        ("plain.fasta", ["seq1", "ATG"])] "missing.fasta" = .error .ioError :=
  ⟨((has_valid_header_spec _ _).1 [">x", "ATG"] (by decide)).trans
      (congrArg Except.ok (by decide)),
   ((has_valid_header_spec _ _).1 [] (by decide)).trans
      (congrArg Except.ok (by decide)),
   ((has_valid_header_spec _ _).1 ["seq1", "ATG"] (by decide)).trans
      (congrArg Except.ok (by decide)),
   (has_valid_header_spec _ _).2 (by decide)⟩

/-- C7 counterexample: on zero records the statistics operation raises the
`StatisticsError` coming from `statistics.mean` on empty data — not the
`InvalidInputError` the claim states — after already printing
`Total reads: 0`. -/
theorem stats_empty_not_invalid_input :
    (print_fasta_statistics []).2 = .error .statisticsError
    ∧ PyError.statisticsError ≠ PyError.invalidInputError
    ∧ (print_fasta_statistics []).1 = [("Total reads", 0)] :=
  ⟨rfl, by decide, rfl⟩

/-- C7 as amended: on an input with zero records the statistics operation
never returns a statistics result — it raises the `StatisticsError`
propagated from the mean computation over the empty length list (there is
no explicit `InvalidInputError` check). -/
theorem stats_empty_raises (lines : List String) (h : fastaParse lines = []) :
    (print_fasta_statistics lines).2 = .error .statisticsError := by
  simp [print_fasta_statistics, h]

/-- Witness for C7: the empty file has zero records. -/
theorem stats_empty_raises_witness :
    (print_fasta_statistics []).2 = .error .statisticsError :=
  stats_empty_raises [] rfl

/-- C10: `print_fasta_statistics` takes the file itself and re-parses it
(so the driver parses twice when statistics are requested), and the
statistics it computes coincide with the Statistics Calculator applied to
the records `parse_file` returns for the same file — the `molecule_type`
annotation changes no length, count or order. -/
theorem stats_recompute_eq_parse_file (lines : List String) :
    print_fasta_statistics lines = statsFromRecords (parse_file lines) := by
  have hsz : (parse_file lines).map (fun r => r.seq.length)
      = (fastaParse lines).map (fun r => r.seq.length) := by
    simp only [parse_file, List.map_map]
    rfl
  have hlen : (parse_file lines).length = (fastaParse lines).length := by
    simp [parse_file]
  simp only [print_fasta_statistics, statsFromRecords, hsz, hlen]

/-! ### Statistics lemmas -/

theorem foldl_max_le (xs : List ℕ) : ∀ (x y : ℕ), (y = x ∨ y ∈ xs) →
    y ≤ xs.foldl max x := by
  induction xs with
  | nil =>
    intro x y h
    rcases h with rfl | h
    · exact Nat.le_refl y
    · simp at h
  | cons a xs ih =>
    intro x y h
    simp only [List.foldl_cons]
    rcases h with rfl | h
    · exact Nat.le_trans (le_max_left y a) (ih (max y a) (max y a) (Or.inl rfl))
    · rcases List.mem_cons.mp h with rfl | h
      · exact Nat.le_trans (le_max_right x y) (ih (max x y) (max x y) (Or.inl rfl))
      · exact ih (max x a) y (Or.inr h)

theorem foldl_max_mem (xs : List ℕ) : ∀ x : ℕ,
    xs.foldl max x = x ∨ xs.foldl max x ∈ xs := by
  induction xs with
  | nil => intro x; exact Or.inl rfl
  | cons a xs ih =>
    intro x
    simp only [List.foldl_cons]
    rcases ih (max x a) with h | h
    · rw [h]
      rcases max_choice x a with h1 | h1
      · exact Or.inl h1
      · rw [h1]
        exact Or.inr (List.mem_cons_self _ _)
    · exact Or.inr (List.mem_cons_of_mem a h)

theorem foldl_min_ge (xs : List ℕ) : ∀ (x y : ℕ), (y = x ∨ y ∈ xs) →
    xs.foldl min x ≤ y := by
  induction xs with
  | nil =>
    intro x y h
    rcases h with rfl | h
    · exact Nat.le_refl y
    · simp at h
  | cons a xs ih =>
    intro x y h
    simp only [List.foldl_cons]
    rcases h with rfl | h
    · exact Nat.le_trans (ih (min y a) (min y a) (Or.inl rfl)) (min_le_left y a)
    · rcases List.mem_cons.mp h with rfl | h
      · exact Nat.le_trans (ih (min x y) (min x y) (Or.inl rfl)) (min_le_right x y)
      · exact ih (min x a) y (Or.inr h)

theorem foldl_min_mem (xs : List ℕ) : ∀ x : ℕ,
    xs.foldl min x = x ∨ xs.foldl min x ∈ xs := by
  induction xs with
  | nil => intro x; exact Or.inl rfl
  | cons a xs ih =>
    intro x
    simp only [List.foldl_cons]
    rcases ih (min x a) with h | h
    · rw [h]
      rcases min_choice x a with h1 | h1
      · exact Or.inl h1
      · rw [h1]
        exact Or.inr (List.mem_cons_self _ _)
    · exact Or.inr (List.mem_cons_of_mem a h)

theorem pymax_is_ub (l : List ℕ) : ∀ y ∈ l, y ≤ pymax l := by
  rcases l with _ | ⟨x, xs⟩
  · intro y hy; simp at hy
  · intro y hy
    simp only [pymax]
    rcases List.mem_cons.mp hy with rfl | hy
    · exact foldl_max_le xs y y (Or.inl rfl)
    · exact foldl_max_le xs x y (Or.inr hy)

theorem pymax_mem (l : List ℕ) (h : l ≠ []) : pymax l ∈ l := by
  rcases l with _ | ⟨x, xs⟩
  · exact absurd rfl h
  · simp only [pymax]
    rcases foldl_max_mem xs x with h1 | h1
    · rw [h1]
      exact List.mem_cons_self _ _
    · exact List.mem_cons_of_mem x h1

theorem pymin_is_lb (l : List ℕ) : ∀ y ∈ l, pymin l ≤ y := by
  rcases l with _ | ⟨x, xs⟩
  · intro y hy; simp at hy
  · intro y hy
    simp only [pymin]
    rcases List.mem_cons.mp hy with rfl | hy
    · exact foldl_min_ge xs y y (Or.inl rfl)
    · exact foldl_min_ge xs x y (Or.inr hy)

theorem pymin_mem (l : List ℕ) (h : l ≠ []) : pymin l ∈ l := by
  rcases l with _ | ⟨x, xs⟩
  · exact absurd rfl h
  · simp only [pymin]
    rcases foldl_min_mem xs x with h1 | h1
    · rw [h1]
      exact List.mem_cons_self _ _
    · exact List.mem_cons_of_mem x h1

theorem pymean_bounds (l : List ℕ) (h : l ≠ []) :
    (pymin l : ℚ) ≤ pymean l ∧ pymean l ≤ (pymax l : ℚ) := by
  have hn : 0 < (l.length : ℚ) := by
    have := List.length_pos.mpr h
    exact_mod_cast this
  have hub' : ∀ x ∈ l.map (fun n : ℕ => (n : ℚ)), x ≤ (pymax l : ℚ) := by
    intro x hx
    rcases List.mem_map.mp hx with ⟨n, hn', rfl⟩
    exact_mod_cast pymax_is_ub l n hn'
  have hlb' : ∀ x ∈ l.map (fun n : ℕ => (n : ℚ)), (pymin l : ℚ) ≤ x := by
    intro x hx
    rcases List.mem_map.mp hx with ⟨n, hn', rfl⟩
    exact_mod_cast pymin_is_lb l n hn'
  have hub := List.sum_le_card_nsmul (l.map (fun n : ℕ => (n : ℚ))) (pymax l : ℚ) hub'
  have hlb := List.card_nsmul_le_sum (l.map (fun n : ℕ => (n : ℚ))) (pymin l : ℚ) hlb'
  rw [List.length_map, nsmul_eq_mul] at hub hlb
  constructor
  · rw [pymean, le_div_iff₀ hn]
    calc (pymin l : ℚ) * (l.length : ℚ) = (l.length : ℚ) * (pymin l : ℚ) := mul_comm _ _
    _ ≤ (l.map (fun n : ℕ => (n : ℚ))).sum := hlb
  · rw [pymean, div_le_iff₀ hn]
    calc (l.map (fun n : ℕ => (n : ℚ))).sum ≤ (l.length : ℚ) * (pymax l : ℚ) := hub
    _ = (pymax l : ℚ) * (l.length : ℚ) := mul_comm _ _

theorem mergeSort_getD_mem (l : List ℕ) (i : ℕ) (hi : i < l.length) :
    (l.mergeSort (fun a b => a ≤ b)).getD i 0 ∈ l := by
  have hperm : (l.mergeSort (fun a b => a ≤ b)).Perm l := List.mergeSort_perm l _
  have hlen : (l.mergeSort (fun a b => a ≤ b)).length = l.length := hperm.length_eq
  have hi' : i < (l.mergeSort (fun a b => a ≤ b)).length := hlen ▸ hi
  rw [List.getD_eq_getElem _ _ hi']
  exact hperm.mem_iff.mp (List.getElem_mem hi')

theorem pymedian_bounds (l : List ℕ) (h : l ≠ []) :
    (pymin l : ℚ) ≤ pymedian l ∧ pymedian l ≤ (pymax l : ℚ) := by
  have h0 : 0 < l.length := List.length_pos.mpr h
  rw [pymedian]
  by_cases hpar : l.length % 2 = 1
  · rw [if_pos hpar]
    have hmem := mergeSort_getD_mem l (l.length / 2) (Nat.div_lt_self h0 (by norm_num))
    constructor
    · exact_mod_cast pymin_is_lb l _ hmem
    · exact_mod_cast pymax_is_ub l _ hmem
  · rw [if_neg hpar]
    have h2 : 2 ≤ l.length := by omega
    have hmem1 := mergeSort_getD_mem l (l.length / 2 - 1) (by omega)
    have hmem2 := mergeSort_getD_mem l (l.length / 2) (Nat.div_lt_self h0 (by norm_num))
    have lb1 : (pymin l : ℚ) ≤ ((l.mergeSort (fun a b => a ≤ b)).getD (l.length / 2 - 1) 0 : ℚ) := by
      exact_mod_cast pymin_is_lb l _ hmem1
    have lb2 : (pymin l : ℚ) ≤ ((l.mergeSort (fun a b => a ≤ b)).getD (l.length / 2) 0 : ℚ) := by
      exact_mod_cast pymin_is_lb l _ hmem2
    have ub1 : ((l.mergeSort (fun a b => a ≤ b)).getD (l.length / 2 - 1) 0 : ℚ) ≤ (pymax l : ℚ) := by
      exact_mod_cast pymax_is_ub l _ hmem1
    have ub2 : ((l.mergeSort (fun a b => a ≤ b)).getD (l.length / 2) 0 : ℚ) ≤ (pymax l : ℚ) := by
      exact_mod_cast pymax_is_ub l _ hmem2
    constructor
    · linarith
    · linarith

/-- Destructuring helper: a successful statistics run determines the
dictionary fields and the printed trace from the nonempty size list. -/
theorem stats_ok_inversion (lines : List String) (trace : List (String × ℚ)) (d : StatsDict)
    (h : print_fasta_statistics lines = (trace, .ok d)) :
    sizesOf lines ≠ []
    ∧ d = ⟨(fastaParse lines).length, pymean (sizesOf lines), pymedian (sizesOf lines),
        pymax (sizesOf lines), pymin (sizesOf lines)⟩
    ∧ trace = [("Total reads", ((fastaParse lines).length : ℚ)),
        ("Mean read length", pymean (sizesOf lines)),
        ("Median read length", pymedian (sizesOf lines)),
        ("Max read length", (pymax (sizesOf lines) : ℚ)),
        ("Min read length", (pymin (sizesOf lines) : ℚ))] := by
  simp only [print_fasta_statistics] at h
  rcases hs : (fastaParse lines).map (fun r => r.seq.length) with _ | ⟨x, xs⟩
  · rw [hs] at h
    simp at h
  · rw [hs] at h
    simp only [Prod.mk.injEq, Except.ok.injEq] at h
    refine ⟨by simp [sizesOf, hs], ?_, ?_⟩
    · rw [← h.2]
      simp [sizesOf, hs]
    · rw [← h.1]
      simp [sizesOf, hs]

/-- Forward computation: a file whose size list is a (concrete) cons
evaluates to the full statistics tuple. -/
theorem stats_cons (lines : List String) (x : ℕ) (xs : List ℕ)
    (hs : sizesOf lines = x :: xs) :
    print_fasta_statistics lines
      = ([("Total reads", ((fastaParse lines).length : ℚ)),
          ("Mean read length", pymean (x :: xs)),
          ("Median read length", pymedian (x :: xs)),
          ("Max read length", (pymax (x :: xs) : ℚ)),
          ("Min read length", (pymin (x :: xs) : ℚ))],
         .ok ⟨(fastaParse lines).length, pymean (x :: xs), pymedian (x :: xs),
              pymax (x :: xs), pymin (x :: xs)⟩) := by
  simp only [sizesOf] at hs
  simp only [print_fasta_statistics, hs]

/-- Concrete mean of the spec's example lengths. -/
theorem pymean_example : pymean [3, 12, 21] = 12 := by
  norm_num [pymean]

/-- Concrete median of the spec's example lengths. -/
theorem pymedian_example : pymedian [3, 12, 21] = 12 := by
  have hs : ([3, 12, 21] : List ℕ).mergeSort (fun a b => a ≤ b) = [3, 12, 21] :=
    List.mergeSort_eq_self (by decide)
  norm_num [pymedian, hs, List.getD]

/-- Full evaluation of the statistics operation on the spec's three-record
example file. -/
theorem statsExample_eval :
    print_fasta_statistics statsExampleLines
      = ([("Total reads", 3), ("Mean read length", 12), ("Median read length", 12),
          ("Max read length", 21), ("Min read length", 3)],
         .ok ⟨3, 12, 12, 21, 3⟩) := by
  rw [stats_cons statsExampleLines 3 [12, 21] (by decide), pymean_example, pymedian_example]
  norm_num
  decide

/-- C6: on the spec's example (lengths 3, 12, 21) the statistics operation
prints and returns total_reads=3, mean=12, median=12, max=21, min=3; and on
every successful run, total_reads is the record count, the mean is the
arithmetic mean of the lengths, the median is the standard statistical
median of a sorted permutation of the lengths (average of the two middle
values for even counts), max and min are the extrema of the length list,
and the five statistics are printed as labelled lines in the fixed order
Total reads, Mean, Median, Max, Min. -/
theorem stats_spec :
    print_fasta_statistics statsExampleLines
      = ([("Total reads", 3), ("Mean read length", 12), ("Median read length", 12),
          ("Max read length", 21), ("Min read length", 3)],
         .ok ⟨3, 12, 12, 21, 3⟩)
    ∧ ∀ (lines : List String) (trace : List (String × ℚ)) (d : StatsDict),
        print_fasta_statistics lines = (trace, .ok d) →
        d.total_reads = (fastaParse lines).length
        ∧ d.mean_read_length
            = ((sizesOf lines).map (fun n : ℕ => (n : ℚ))).sum / ((sizesOf lines).length : ℚ)
        ∧ (∃ s : List ℕ, (sizesOf lines).Perm s ∧ s.Sorted (· ≤ ·)
            ∧ d.median_read_length
                = if (sizesOf lines).length % 2 = 1 then
                    ((s.getD ((sizesOf lines).length / 2) 0 : ℕ) : ℚ)
                  else
                    ((s.getD ((sizesOf lines).length / 2 - 1) 0 : ℚ)
                      + (s.getD ((sizesOf lines).length / 2) 0 : ℚ)) / 2)
        ∧ (d.max_read_length ∈ sizesOf lines ∧ ∀ x ∈ sizesOf lines, x ≤ d.max_read_length)
        ∧ (d.min_read_length ∈ sizesOf lines ∧ ∀ x ∈ sizesOf lines, d.min_read_length ≤ x)
        ∧ trace.map Prod.fst
            = ["Total reads", "Mean read length", "Median read length",
               "Max read length", "Min read length"] := by
  constructor
  · exact statsExample_eval
  · intro lines trace d h
    rcases stats_ok_inversion lines trace d h with ⟨hne, hd, htr⟩
    have hlen : (sizesOf lines).length = (fastaParse lines).length := by
      simp [sizesOf]
    subst hd
    subst htr
    refine ⟨rfl, ?_, ?_, ?_, ?_, rfl⟩
    · rw [pymean]
    · refine ⟨(sizesOf lines).mergeSort (fun a b => a ≤ b),
        (List.mergeSort_perm (sizesOf lines) _).symm, ?_, ?_⟩
      · exact List.sorted_mergeSort' (sizesOf lines)
      · rw [pymedian]
    · exact ⟨pymax_mem _ hne, pymax_is_ub _⟩
    · exact ⟨pymin_mem _ hne, pymin_is_lb _⟩

/-- Witness for C6: the successful-run hypothesis discharged on the spec's
three-record example. -/
theorem stats_spec_witness :
    (StatsDict.mk 3 12 12 21 3).total_reads = (fastaParse statsExampleLines).length :=
  (stats_spec.2 statsExampleLines _ _ stats_spec.1).1

/-- C8: every successful statistics result satisfies
min ≤ mean ≤ max and min ≤ median ≤ max. -/
theorem stats_result_bounds (lines : List String) (trace : List (String × ℚ))
    (d : StatsDict) (h : print_fasta_statistics lines = (trace, .ok d)) :
    (d.min_read_length : ℚ) ≤ d.mean_read_length
    ∧ d.mean_read_length ≤ (d.max_read_length : ℚ)
    ∧ (d.min_read_length : ℚ) ≤ d.median_read_length
    ∧ d.median_read_length ≤ (d.max_read_length : ℚ) := by
  rcases stats_ok_inversion lines trace d h with ⟨hne, hd, -⟩
  subst hd
  rcases pymean_bounds (sizesOf lines) hne with ⟨h1, h2⟩
  rcases pymedian_bounds (sizesOf lines) hne with ⟨h3, h4⟩
  exact ⟨h1, h2, h3, h4⟩

/-- Witness for C8: the hypothesis discharged on the spec's three-record
example, giving 3 ≤ 12 ≤ 21 for mean and median. -/
theorem stats_result_bounds_witness :
    ((StatsDict.mk 3 12 12 21 3).min_read_length : ℚ)
        ≤ (StatsDict.mk 3 12 12 21 3).mean_read_length
    ∧ (StatsDict.mk 3 12 12 21 3).mean_read_length
        ≤ ((StatsDict.mk 3 12 12 21 3).max_read_length : ℚ)
    ∧ ((StatsDict.mk 3 12 12 21 3).min_read_length : ℚ)
        ≤ (StatsDict.mk 3 12 12 21 3).median_read_length
    ∧ (StatsDict.mk 3 12 12 21 3).median_read_length
        ≤ ((StatsDict.mk 3 12 12 21 3).max_read_length : ℚ) :=
  stats_result_bounds statsExampleLines
    [("Total reads", 3), ("Mean read length", 12), ("Median read length", 12),
     ("Max read length", 21), ("Min read length", 3)]
    (StatsDict.mk 3 12 12 21 3) statsExample_eval

/-! ### Writer claim theorems -/

/-- C4: a destination whose parent directory does not exist makes
`write_genbank` print the I/O diagnostic and propagate `IOError`; an input
that is not a sequence of valid records (with a writable destination)
makes it print the generic diagnostic and propagate the generic
`Exception`; the two error classes are distinct and in neither case does
the function return normally. -/
theorem write_genbank_error_modes (dirs : List String) (items : List WriterItem)
    (path : String) :
    (dirOk dirs path = false →
      write_genbank dirs items (.str path)
        = (["An I/O error occurred: "], .error .ioError))
    ∧ (dirOk dirs path = true → items.all itemValid = false →
      write_genbank dirs items (.str path)
        = (["An unexpected error occurred: "], .error .unexpectedError))
    ∧ PyError.ioError ≠ PyError.unexpectedError := by
  refine ⟨?_, ?_, by decide⟩
  · intro h
    simp [write_genbank, h]
  · intro h1 h2
    simp [write_genbank, h1, h2]

/-- Witness for C4: the missing-directory destination of the test suite
raises `IOError`; the malformed input of the test suite raises the generic
error on a writable destination. -/
theorem write_genbank_error_modes_witness :
    write_genbank [] [WriterItem.junk "not a parsed list"] (.str "invalid/path/output.gb")
      = (["An I/O error occurred: "], .error .ioError)
    ∧ write_genbank [] [WriterItem.junk "not a parsed list"] (.str "output.gb")
      = (["An unexpected error occurred: "], .error .unexpectedError) :=
  ⟨(write_genbank_error_modes [] [WriterItem.junk "not a parsed list"]
      "invalid/path/output.gb").1 (by decide),
   (write_genbank_error_modes [] [WriterItem.junk "not a parsed list"]
      "output.gb").2.1 (by decide) (by decide)⟩

/-- Success lemma: on a writable destination with every record annotated,
`write_genbank` prints the completion message and returns the count with
the emitted content. -/
theorem write_genbank_success (dirs : List String) (recs : List SeqRecord) (path : String)
    (hdir : dirOk dirs path = true)
    (hval : ∀ r ∈ recs, (annotGet r.annotations "molecule_type").isSome = true) :
    write_genbank dirs (recs.map WriterItem.record) (.str path)
      = (["Conversion process completed Successfully."],
         .ok (recs.length, recs.flatMap genbankRecordLines)) := by
  have hall : (recs.map WriterItem.record).all itemValid = true := by
    rw [List.all_eq_true]
    intro x hx
    rcases List.mem_map.mp hx with ⟨r, hr, rfl⟩
    exact hval r hr
  simp only [write_genbank, hdir, if_pos, hall, if_true]
  rw [List.length_map, List.flatMap_map]
  rfl

/-- The `LOCUS` keyword is a prefix of every emitted `LOCUS` line. -/
theorem locus_prefix_append (t : List Char) :
    "LOCUS".data.isPrefixOf ("LOCUS       ".data ++ t) = true := by
  rw [ List.isPrefixOf_iff_prefix]
  refine ⟨"       ".data ++ t, ?_⟩
  rw [← List.append_assoc]
  rfl

/-- A line starting with a blank is never recognised as a `LOCUS` line. -/
theorem locus_not_prefix_space (t : List Char) :
    "LOCUS".data.isPrefixOf (' ' :: t) = false := rfl

/-- Extracting the identifier word back out of a `LOCUS` line: the
space-free identifier followed by a blank is recovered exactly. -/
theorem takeWhile_spaceFree (i : List Char) (rest : List Char)
    (h : ∀ c ∈ i, c ≠ ' ') :
    (i ++ ' ' :: rest).takeWhile (fun c => !(c == ' ')) = i := by
  induction i with
  | nil => simp [List.takeWhile_cons]
  | cons c cs ih =>
    have hc : (c == ' ') = false := by
      have := h c (List.mem_cons_self c cs)
      simp [this]
    rw [List.cons_append, List.takeWhile_cons]
    rw [hc]
    simp only [Bool.not_false, if_true]
    rw [ih (fun x hx => h x (List.mem_cons_of_mem c hx))]

/-- The identifiers extracted from one record's GenBank block are exactly
that record's identifier. -/
theorem genbankIds_record (r : SeqRecord) (h : ∀ c ∈ r.id.data, c ≠ ' ') :
    genbankIds (genbankRecordLines r) = [r.id.data] := by
  have hdrop : (("LOCUS       ".data ++ (r.id.data ++ (' ' :: ((toString r.seq.length).data
      ++ (" bp ".data ++ ((annotGet r.annotations "molecule_type").getD "").data))))).drop 12)
      = r.id.data ++ (' ' :: ((toString r.seq.length).data
        ++ (" bp ".data ++ ((annotGet r.annotations "molecule_type").getD "").data))) :=
    List.drop_left' rfl
  simp only [genbankIds, genbankRecordLines, List.filterMap_cons, List.filterMap_nil,
    locus_prefix_append, locus_not_prefix_space]
  rw [hdrop, takeWhile_spaceFree _ _ h]
  rfl

/-- The identifiers extracted from a whole emitted file are the record
identifiers in order. -/
theorem genbankIds_flatMap (recs : List SeqRecord)
    (h : ∀ r ∈ recs, ∀ c ∈ r.id.data, c ≠ ' ') :
    genbankIds (recs.flatMap genbankRecordLines) = recs.map (fun r => r.id.data) := by
  induction recs with
  | nil => rfl
  | cons r rs ih =>
    rw [List.flatMap_cons, List.map_cons]
    show genbankIds (genbankRecordLines r ++ rs.flatMap genbankRecordLines) = _
    rw [genbankIds, List.filterMap_append]
    rw [show List.filterMap _ (genbankRecordLines r) = genbankIds (genbankRecordLines r) from rfl]
    rw [show List.filterMap _ (rs.flatMap genbankRecordLines)
        = genbankIds (rs.flatMap genbankRecordLines) from rfl]
    rw [genbankIds_record r (h r (List.mem_cons_self r rs))]
    rw [ih (fun x hx => h x (List.mem_cons_of_mem r hx))]
    rfl

/-- Identifiers of `parse_file` records contain no blank: they are the
first whitespace-delimited word of a header line. -/
theorem parse_file_id_spaceFree (lines : List String) :
    ∀ r ∈ parse_file lines, ∀ c ∈ r.id.data, c ≠ ' ' := by
  intro r hr
  simp only [parse_file, List.mem_map] at hr
  rcases hr with ⟨r₀, h₀, rfl⟩
  exact fastaParse_id_spaceFree lines r₀ h₀

/-- C3 counterexample: called on the empty record list with a writable
destination, `write_genbank` succeeds with count 0 and the produced file
content is empty — it contains no line at all, hence neither the `LOCUS`
keyword nor anything else, refuting the claim's "for every list". -/
theorem write_genbank_empty_list_empty_file :
    write_genbank [] (([] : List SeqRecord).map WriterItem.record) (.str "out.gb")
      = (["Conversion process completed Successfully."], .ok (0, []))
    ∧ ¬ ∃ line ∈ ([] : List (List Char)), "LOCUS".data.isPrefixOf line = true :=
  ⟨rfl, by simp⟩

/-- C3 as amended to nonempty inputs: for every nonempty list of annotated
records and writable destination, `write_genbank` returns the count equal
to the input length and the produced file is nonempty, contains a `LOCUS`
line, and contains every input record's identifier. -/
theorem write_genbank_count_and_content (dirs : List String) (recs : List SeqRecord)
    (path : String) (hne : recs ≠ [])
    (hval : ∀ r ∈ recs, (annotGet r.annotations "molecule_type").isSome = true)
    (hdir : dirOk dirs path = true) :
    write_genbank dirs (recs.map WriterItem.record) (.str path)
      = (["Conversion process completed Successfully."],
         .ok (recs.length, recs.flatMap genbankRecordLines))
    ∧ recs.flatMap genbankRecordLines ≠ []
    ∧ (∃ line ∈ recs.flatMap genbankRecordLines, "LOCUS".data.isPrefixOf line = true)
    ∧ ∀ r ∈ recs, ∃ line ∈ recs.flatMap genbankRecordLines,
        ∃ s t : List Char, s ++ (r.id.data ++ t) = line := by
  refine ⟨write_genbank_success dirs recs path hdir hval, ?_, ?_, ?_⟩
  · rcases recs with _ | ⟨r, rs⟩
    · exact absurd rfl hne
    · rw [List.flatMap_cons]
      simp [genbankRecordLines]
  · rcases recs with _ | ⟨r, rs⟩
    · exact absurd rfl hne
    · refine ⟨"LOCUS       ".data ++ (r.id.data ++ (' ' :: ((toString r.seq.length).data
        ++ (" bp ".data ++ ((annotGet r.annotations "molecule_type").getD "").data)))),
        ?_, ?_⟩
      · exact List.mem_flatMap_of_mem (List.mem_cons_self r rs) (List.mem_cons_self _ _)
      · exact locus_prefix_append _
  · intro r hr
    refine ⟨"LOCUS       ".data ++ (r.id.data ++ (' ' :: ((toString r.seq.length).data
      ++ (" bp ".data ++ ((annotGet r.annotations "molecule_type").getD "").data)))),
      ?_, "LOCUS       ".data,
      ' ' :: ((toString r.seq.length).data
        ++ (" bp ".data ++ ((annotGet r.annotations "molecule_type").getD "").data)), rfl⟩
    exact List.mem_flatMap_of_mem hr (List.mem_cons_self _ _)

/-- Witness for C3: the three-record annotated set of the test suite
written to a writable path returns count 3. -/
theorem write_genbank_count_and_content_witness :
    (write_genbank [] ([⟨"seq1", "ATGCTAGCTAGCTACGATCG", [("molecule_type", "DNA")]⟩,
        ⟨"seq2", "ATCGATCGATCGATCGATCG", [("molecule_type", "DNA")]⟩,
        ⟨"seq3", "ATCGATCGATCGATCGATCGATCG", [("molecule_type", "DNA")]⟩].map
        WriterItem.record) (.str "test_output.gb")).2.map Prod.fst = .ok 3 := by
  rw [(write_genbank_count_and_content []
    [⟨"seq1", "ATGCTAGCTAGCTACGATCG", [("molecule_type", "DNA")]⟩,
     ⟨"seq2", "ATCGATCGATCGATCGATCG", [("molecule_type", "DNA")]⟩,
     ⟨"seq3", "ATCGATCGATCGATCGATCGATCG", [("molecule_type", "DNA")]⟩]
    "test_output.gb" (by decide) (by decide) (by decide)).1]
  rfl

/-- C9: for every FASTA input and writable destination, writing the
records of `parse_file` succeeds and the identifiers appearing in the
emitted GenBank content are exactly the identifiers of the parsed records
— in particular the two agree as sets. -/
theorem roundtrip_ids (lines : List String) (dirs : List String) (path : String)
    (hdir : dirOk dirs path = true) :
    write_genbank dirs ((parse_file lines).map WriterItem.record) (.str path)
      = (["Conversion process completed Successfully."],
         .ok ((parse_file lines).length, (parse_file lines).flatMap genbankRecordLines))
    ∧ genbankIds ((parse_file lines).flatMap genbankRecordLines)
        = (parse_file lines).map (fun r => r.id.data)
    ∧ (genbankIds ((parse_file lines).flatMap genbankRecordLines)).toFinset
        = ((parse_file lines).map (fun r => r.id.data)).toFinset := by
  have hids := genbankIds_flatMap (parse_file lines) (parse_file_id_spaceFree lines)
  refine ⟨?_, hids, by rw [hids]⟩
  refine write_genbank_success dirs (parse_file lines) path hdir ?_
  intro r hr
  rw [parse_file_molecule lines r hr]
  rfl

/-- Witness for C9: the identifier round-trip on the concrete two-record
example, with the writable default destination. -/
theorem roundtrip_ids_witness :
    genbankIds ((parse_file roundtripExampleLines).flatMap genbankRecordLines)
      = (parse_file roundtripExampleLines).map (fun r => r.id.data) :=
  (roundtrip_ids roundtripExampleLines [] "genbankOutput" (by decide)).2.1

/-- C1: the Python default parameter makes a call with the destination
omitted write to "genbankOutput" (its parent, the working directory, is
always writable), but the CLI driver never makes such a call: with `-o`
omitted argparse yields `output = None`, `main` passes that `None` on,
and the run aborts with the generic re-raised exception instead of
writing to "genbankOutput". -/
theorem default_destination_divergence :
    main [("in.fasta", [">seq1", "ATGC"])] [] ⟨"in.fasta", PyDest.pynone, false⟩
      = .error .unexpectedError
    ∧ (write_genbank_nodest []
        ((parse_file [">seq1", "ATGC"]).map WriterItem.record)).2
      = .ok (1, genbankRecordLines ⟨"seq1", "ATGC", [("molecule_type", "DNA")]⟩)
    ∧ parentOf "genbankOutput" = "" :=
  ⟨rfl, rfl, rfl⟩

end FastaToGenbank
